import Mathlib

/-!
Verification of `colav_simulator/common/config_parsing.py`.

The module is a four-stage pipeline (read, validate, override, convert).
Python dictionaries are modelled as ordered association lists (`Dict`),
matching the insertion-order semantics of `dict`.  The external
collaborators — the cerberus rule engine, the YAML reader and the dacite
converter — are modelled as abstract parameters (`RuleEngine`, a
`String → Except PyError Dict` file map, and conversion functions), so
every theorem quantifies over their behaviour.
-/

namespace ConfigParsing

/-- A Python value occurring in a loaded configuration mapping. -/
inductive Val where
  | vNone : Val
  | vBool : Bool → Val
  | vInt : Int → Val
  | vStr : String → Val
  | vList : List Val → Val
  | vDict : List (String × Val) → Val

/-- A Python `dict` with string keys, as an insertion-ordered association list. -/
abbrev Dict := List (String × Val)

/-- The errors raised by the module (`ValueError` in the source). -/
inductive PyError where
  | valueError : String → PyError
deriving DecidableEq

/-- `d[k] = v` on a Python dict: replace the value in place if the key is
present (keeping its position), otherwise append the new key at the end. -/
def dictSet : Dict → String → Val → Dict
  | [], k, v => [(k, v)]
  | (k', v') :: rest, k, v =>
    if k' = k then (k, v) :: rest else (k', v') :: dictSet rest k v

/-- `d.get(k)` on a Python dict. -/
def dictLookup : Dict → String → Option Val
  | [], _ => none
  | (k', v') :: rest, k => if k' = k then some v' else dictLookup rest k

/-- Abstraction of the cerberus `Validator`: given a schema it decides
whether a settings mapping is valid, and renders the field-level
violations as the string interpolated into the error message. -/
structure RuleEngine where
  validate : Dict → Dict → Bool
  errors : Dict → Dict → String

/-- `validate(settings, schema)` from the source: raise on empty settings,
then on empty schema, then run the rule engine and raise with its errors
when the settings are invalid. -/
def validate (eng : RuleEngine) (settings schema : Dict) : Except PyError Unit :=
  if settings.isEmpty then .error (.valueError "Empty settings!")
  else if schema.isEmpty then .error (.valueError "Empty schema!")
  else if eng.validate schema settings then .ok ()
  else .error (.valueError ("Cerberus validation Error: " ++ eng.errors schema settings))

/-- `validate` with the two dict arguments threaded as mutable state, the
way Python passes them by reference: each branch of the source performs no
write to `settings` or `schema`, so each branch returns the state it
received. -/
def validateSt (eng : RuleEngine) (settings schema : Dict) :
    Except PyError Unit × Dict × Dict :=
  if settings.isEmpty then (.error (.valueError "Empty settings!"), settings, schema)
  else if schema.isEmpty then (.error (.valueError "Empty schema!"), settings, schema)
  else if eng.validate schema settings then (.ok (), settings, schema)
  else (.error (.valueError ("Cerberus validation Error: " ++ eng.errors schema settings)),
        settings, schema)

/-- `extract_valid_sections(schema)` from the source: raise only when the
schema is `None`, otherwise accumulate the top-level keys in order. -/
def extract_valid_sections (schema : Option Dict) : Except PyError (List String) :=
  match schema with
  | none => .error (.valueError "No configuration schema provided!")
  | some s => .ok (s.foldl (fun sections kv => sections ++ [kv.1]) [])

/-- `override(settings, schema, **kwargs)` from the source: return the
settings untouched when there are no keyword arguments; otherwise write
each pair at top level into the (aliased) mapping, re-validate, and return
the mapping.  The second component is the final state of the caller's
`settings` dict, which the source mutates through the `new_settings`
alias. -/
def override (eng : RuleEngine) (settings schema : Dict)
    (kwargs : List (String × Val)) : Except PyError Dict × Dict :=
  if kwargs.isEmpty then (.ok settings, settings)
  else
    let new_settings := kwargs.foldl (fun d kv => dictSet d kv.1 kv.2) settings
    match validate eng new_settings schema with
    | .ok _ => (.ok new_settings, new_settings)
    | .error e => (.error e, new_settings)

/-- `parse(file_name, schema)` from the source: read the file into a dict
(the reader is the abstract `fs`), validate it, return it. -/
def parse (eng : RuleEngine) (fs : String → Except PyError Dict)
    (file_name : String) (schema : Dict) : Except PyError Dict :=
  match fs file_name with
  | .error e => .error e
  | .ok settings =>
    match validate eng settings schema with
    | .error e => .error e
    | .ok _ => .ok settings

/-- `convert_settings_dict_to_dataclass` from the source: call dacite with
type hooks when a converter is given, without otherwise. -/
def convert_settings_dict_to_dataclass {α χ : Type}
    (fromDict : Dict → Except PyError α)
    (fromDictHooks : χ → Dict → Except PyError α)
    (config_dict : Dict) (converter : Option χ) : Except PyError α :=
  match converter with
  | some c => fromDictHooks c config_dict
  | none => fromDict config_dict

/-- `extract` from the source: read the schema, parse the config file
against it, apply the keyword overrides, convert to the dataclass. -/
def extract {α χ : Type} (eng : RuleEngine) (fs : String → Except PyError Dict)
    (fromDict : Dict → Except PyError α)
    (fromDictHooks : χ → Dict → Except PyError α)
    (config_file config_schema : String) (converter : Option χ)
    (kwargs : List (String × Val)) : Except PyError α :=
  match fs config_schema with
  | .error e => .error e
  | .ok schema =>
    match parse eng fs config_file schema with
    | .error e => .error e
    | .ok settings =>
      match (override eng settings schema kwargs).1 with
      | .error e => .error e
      | .ok settings2 =>
        convert_settings_dict_to_dataclass fromDict fromDictHooks settings2 converter

/-- A rule engine that accepts every mapping (used to instantiate theorems
at concrete inputs). -/
def engAccept : RuleEngine where
  validate := fun _ _ => true
  errors := fun _ _ => ""

/-- A rule engine that rejects every mapping with a fixed rendered error. -/
def engReject : RuleEngine where
  validate := fun _ _ => false
  errors := fun _ _ => "E"

/-! ## Helper lemmas on the dict model. -/

theorem dictSet_ne_nil (d : Dict) (k : String) (v : Val) : dictSet d k v ≠ [] := by
  cases d with
  | nil => simp [dictSet]
  | cons kv rest =>
    obtain ⟨k', v'⟩ := kv
    simp only [dictSet]
    split <;> simp

theorem dictLookup_dictSet_self (d : Dict) (k : String) (v : Val) :
    dictLookup (dictSet d k v) k = some v := by
  induction d with
  | nil => simp [dictSet, dictLookup]
  | cons kv rest ih =>
    obtain ⟨k', v'⟩ := kv
    simp only [dictSet]
    by_cases h : k' = k
    · simp [h, dictLookup]
    · simp [h, dictLookup, ih]

theorem dictLookup_dictSet_ne (d : Dict) (k k'' : String) (v : Val) (h : k ≠ k'') :
    dictLookup (dictSet d k v) k'' = dictLookup d k'' := by
  induction d with
  | nil => simp [dictSet, dictLookup, h]
  | cons kv rest ih =>
    obtain ⟨k', v'⟩ := kv
    simp only [dictSet]
    by_cases hk : k' = k
    · subst hk
      simp [dictLookup, h]
    · simp only [hk, if_false, dictLookup, ih]

/-- Merging a pair list whose keys avoid `k` does not change the value at `k`. -/
theorem dictLookup_foldl_not_mem (l : List (String × Val)) (d : Dict) (k : String)
    (h : k ∉ l.map Prod.fst) :
    dictLookup (l.foldl (fun d kv => dictSet d kv.1 kv.2) d) k = dictLookup d k := by
  induction l generalizing d with
  | nil => rfl
  | cons kv rest ih =>
    simp only [List.map_cons, List.mem_cons] at h
    push_neg at h
    simp only [List.foldl_cons]
    rw [ih _ h.2, dictLookup_dictSet_ne _ _ _ _ (fun he => h.1 he.symm)]

/-- With pairwise-distinct keys, every merged pair is retrievable afterwards. -/
theorem dictLookup_foldl_nodup (l : List (String × Val)) (d : Dict)
    (h : (l.map Prod.fst).Nodup) :
    ∀ kv ∈ l, dictLookup (l.foldl (fun d kv => dictSet d kv.1 kv.2) d) kv.1 = some kv.2 := by
  induction l generalizing d with
  | nil => intro kv hkv; cases hkv
  | cons p rest ih =>
    simp only [List.map_cons, List.nodup_cons] at h
    intro kv hkv
    simp only [List.foldl_cons]
    rcases List.mem_cons.mp hkv with he | hm
    · subst he
      rw [dictLookup_foldl_not_mem _ _ _ h.1, dictLookup_dictSet_self]
    · exact ih _ h.2 kv hm

theorem foldl_append_singleton (s : Dict) :
    ∀ acc : List String, s.foldl (fun sections kv => sections ++ [kv.1]) acc =
      acc ++ s.map Prod.fst := by
  induction s with
  | nil => intro acc; simp
  | cons kv rest ih =>
    intro acc
    simp only [List.foldl_cons, List.map_cons, ih]
    simp

/-! ## Claim theorems. -/

/-- C1: the claim says `extract_valid_sections` raises on every empty
schema, and the function's own docstring promises a `ValueError` on empty
schema; but the code only checks `schema is None`, so on the empty dict it
returns the empty section list instead of raising. -/
theorem extract_valid_sections_empty_returns_nil :
    extract_valid_sections (some []) = .ok [] := rfl

/-- C2 counterexample: with both mappings empty, `validate` raises the
empty-settings error, not the empty-schema error the claim requires for an
empty schema "no matter what the other argument contains". -/
theorem validate_both_empty_raises_empty_settings :
    validate engAccept [] [] = .error (.valueError "Empty settings!") ∧
    validate engAccept [] [] ≠ .error (.valueError "Empty schema!") := by
  refine ⟨rfl, fun h => ?_⟩
  rw [show validate engAccept [] [] = .error (.valueError "Empty settings!") from rfl] at h
  injection h with h1
  injection h1 with h2
  exact absurd h2 (by decide)

/-- C2 amended: when the settings mapping is empty, `validate` fails with
the empty-settings error regardless of the schema; when the settings are
non-empty and the schema is empty, it fails with the empty-schema error
regardless of the settings' content (the settings check takes precedence). -/
theorem validate_empty_inputs (eng : RuleEngine) (M S : Dict) :
    (M = [] → validate eng M S = .error (.valueError "Empty settings!")) ∧
    (M ≠ [] → S = [] → validate eng M S = .error (.valueError "Empty schema!")) := by
  constructor
  · intro hM; subst hM; rfl
  · intro hM hS; subst hS
    cases M with
    | nil => exact absurd rfl hM
    | cons kv rest => rfl

/-- C3: on every non-empty schema, `extract_valid_sections` returns exactly
the top-level keys, in the schema's own order. -/
theorem extract_valid_sections_keys_in_order (S : Dict) (h : S ≠ []) :
    extract_valid_sections (some S) = .ok (S.map Prod.fst) := by
  simp only [extract_valid_sections, foldl_append_singleton, List.nil_append]

theorem extract_valid_sections_keys_in_order_witness :
    ([("a", Val.vInt 1), ("b", Val.vStr "x")] : Dict) ≠ [] ∧
    extract_valid_sections (some [("a", Val.vInt 1), ("b", Val.vStr "x")]) =
      .ok ["a", "b"] :=
  ⟨by simp, extract_valid_sections_keys_in_order
    [("a", Val.vInt 1), ("b", Val.vStr "x")] (by simp)⟩

/-- C4: with no keyword overrides, `override` returns the settings mapping
unchanged and untouched, performing no validation at all — so it succeeds
even for empty or invalid settings and schema. -/
theorem override_no_kwargs_identity (eng : RuleEngine) (M S : Dict) :
    override eng M S [] = (.ok M, M) := rfl

/-- Shared helper: with at least one keyword override, `override` merges
each pair into the settings, re-validates, and leaves the merged mapping
as the final state of the caller's dict whatever validation said. -/
theorem override_nonempty_eq (eng : RuleEngine) (M S : Dict)
    (kwargs : List (String × Val)) (h : kwargs ≠ []) :
    override eng M S kwargs =
      ((validate eng (kwargs.foldl (fun d kv => dictSet d kv.1 kv.2) M) S).map
          (fun _ => kwargs.foldl (fun d kv => dictSet d kv.1 kv.2) M),
        kwargs.foldl (fun d kv => dictSet d kv.1 kv.2) M) := by
  simp only [override, List.isEmpty_eq_false.mpr h, Bool.false_eq_true, if_false]
  cases hv : validate eng (kwargs.foldl (fun d kv => dictSet d kv.1 kv.2) M) S with
  | ok u => cases u; simp [Except.map]
  | error e => simp [Except.map]

/-- C5: with a non-empty set of overrides, `override` writes each pair at
the top level of the settings (replacing present keys in place, appending
absent ones) and then re-validates the merged mapping; in particular, for
an absent key `k` accepted by the engine on a non-empty schema,
`override M S [(k, v)]` succeeds and the result maps `k` to `v`. -/
theorem override_writes_then_revalidates (eng : RuleEngine) (M S : Dict)
    (kwargs : List (String × Val)) (h : kwargs ≠ []) :
    (override eng M S kwargs =
      ((validate eng (kwargs.foldl (fun d kv => dictSet d kv.1 kv.2) M) S).map
          (fun _ => kwargs.foldl (fun d kv => dictSet d kv.1 kv.2) M),
        kwargs.foldl (fun d kv => dictSet d kv.1 kv.2) M)) ∧
    (∀ k v, dictLookup M k = none → S ≠ [] →
      eng.validate S (dictSet M k v) = true →
      (override eng M S [(k, v)]).1 = .ok (dictSet M k v) ∧
      dictLookup (dictSet M k v) k = some v) := by
  refine ⟨override_nonempty_eq eng M S kwargs h, fun k v _ hS hacc => ?_⟩
  rw [override_nonempty_eq eng M S [(k, v)] (by simp)]
  simp only [List.foldl_cons, List.foldl_nil]
  rw [validate, List.isEmpty_eq_false.mpr (dictSet_ne_nil M k v),
    List.isEmpty_eq_false.mpr hS]
  simp [hacc, dictLookup_dictSet_self, Except.map]

theorem override_writes_then_revalidates_witness :
    ([("x", Val.vInt 1)] : List (String × Val)) ≠ [] ∧
    ((override engAccept [("a", Val.vInt 0)] [("s", Val.vNone)] [("x", Val.vInt 1)] =
      ((validate engAccept
            ([("x", Val.vInt 1)].foldl (fun d kv => dictSet d kv.1 kv.2)
              [("a", Val.vInt 0)]) [("s", Val.vNone)]).map
          (fun _ => [("x", Val.vInt 1)].foldl (fun d kv => dictSet d kv.1 kv.2)
            [("a", Val.vInt 0)]),
        [("x", Val.vInt 1)].foldl (fun d kv => dictSet d kv.1 kv.2)
          [("a", Val.vInt 0)])) ∧
    (∀ k v, dictLookup [("a", Val.vInt 0)] k = none → [("s", Val.vNone)] ≠ [] →
      engAccept.validate [("s", Val.vNone)] (dictSet [("a", Val.vInt 0)] k v) = true →
      (override engAccept [("a", Val.vInt 0)] [("s", Val.vNone)] [(k, v)]).1 =
        .ok (dictSet [("a", Val.vInt 0)] k v) ∧
      dictLookup (dictSet [("a", Val.vInt 0)] k v) k = some v)) :=
  ⟨by simp, override_writes_then_revalidates engAccept
    [("a", Val.vInt 0)] [("s", Val.vNone)] [("x", Val.vInt 1)] (by simp)⟩

/-- C6: on a successful call with at least one override, the returned
mapping is exactly the final state of the caller's settings dict (the
return value aliases the mutated input), which holds the merged pairs. -/
theorem override_returns_mutated_input (eng : RuleEngine) (M S : Dict)
    (kwargs : List (String × Val)) (d : Dict) (h : kwargs ≠ [])
    (hs : (override eng M S kwargs).1 = .ok d) :
    d = (override eng M S kwargs).2 ∧
    (override eng M S kwargs).2 = kwargs.foldl (fun d kv => dictSet d kv.1 kv.2) M := by
  rw [override_nonempty_eq eng M S kwargs h] at hs ⊢
  cases hv : validate eng (kwargs.foldl (fun d kv => dictSet d kv.1 kv.2) M) S with
  | ok u =>
    cases u
    rw [hv] at hs
    simp only [Except.map] at hs
    injection hs with hd
    exact ⟨hd.symm, rfl⟩
  | error e =>
    rw [hv] at hs
    simp [Except.map] at hs

theorem override_returns_mutated_input_witness :
    ([("x", Val.vInt 1)] : List (String × Val)) ≠ [] ∧
    (override engAccept [("a", Val.vInt 0)] [("s", Val.vNone)] [("x", Val.vInt 1)]).1 =
      .ok [("a", Val.vInt 0), ("x", Val.vInt 1)] ∧
    ([("a", Val.vInt 0), ("x", Val.vInt 1)] : Dict) =
      (override engAccept [("a", Val.vInt 0)] [("s", Val.vNone)] [("x", Val.vInt 1)]).2 ∧
    (override engAccept [("a", Val.vInt 0)] [("s", Val.vNone)] [("x", Val.vInt 1)]).2 =
      [("x", Val.vInt 1)].foldl (fun d kv => dictSet d kv.1 kv.2) [("a", Val.vInt 0)] :=
  ⟨by simp, rfl,
    override_returns_mutated_input engAccept [("a", Val.vInt 0)] [("s", Val.vNone)]
      [("x", Val.vInt 1)] [("a", Val.vInt 0), ("x", Val.vInt 1)] (by simp) rfl⟩

/-- C7: for non-empty settings and schema, `validate` returns exactly when
the rule engine accepts the settings, and on rejection it fails with a
`ValueError` carrying the engine's rendered field-level violations. -/
theorem validate_ok_iff_engine_accepts (eng : RuleEngine) (M S : Dict)
    (hM : M ≠ []) (hS : S ≠ []) :
    (validate eng M S = .ok () ↔ eng.validate S M = true) ∧
    (eng.validate S M = false →
      validate eng M S =
        .error (.valueError ("Cerberus validation Error: " ++ eng.errors S M))) := by
  rw [validate, List.isEmpty_eq_false.mpr hM, List.isEmpty_eq_false.mpr hS]
  cases hacc : eng.validate S M with
  | true => simp
  | false => simp

theorem validate_ok_iff_engine_accepts_witness :
    ([("a", Val.vInt 1)] : Dict) ≠ [] ∧ ([("s", Val.vNone)] : Dict) ≠ [] ∧
    ((validate engAccept [("a", Val.vInt 1)] [("s", Val.vNone)] = .ok () ↔
        engAccept.validate [("s", Val.vNone)] [("a", Val.vInt 1)] = true) ∧
      (engAccept.validate [("s", Val.vNone)] [("a", Val.vInt 1)] = false →
        validate engAccept [("a", Val.vInt 1)] [("s", Val.vNone)] =
          .error (.valueError ("Cerberus validation Error: " ++
            engAccept.errors [("s", Val.vNone)] [("a", Val.vInt 1)])))) :=
  ⟨by simp, by simp,
    validate_ok_iff_engine_accepts engAccept [("a", Val.vInt 1)] [("s", Val.vNone)]
      (by simp) (by simp)⟩

/-- C8: `validate` is a pure check: threading the two dict arguments as
state shows every branch returns them unmodified, and the produced result
is exactly the pure function's. -/
theorem validateSt_pure (eng : RuleEngine) (M S : Dict) :
    (validateSt eng M S).2 = (M, S) ∧ (validateSt eng M S).1 = validate eng M S := by
  unfold validateSt validate
  split_ifs <;> exact ⟨rfl, rfl⟩

/-- C9: `extract` is exactly the staged pipeline read-schema, read config,
validate, override (with its internal re-validation), convert — composed
in the error monad, so the first failing stage's error propagates and no
partial settings object is ever produced. -/
theorem extract_staged_pipeline {α χ : Type} (eng : RuleEngine)
    (fs : String → Except PyError Dict) (fromDict : Dict → Except PyError α)
    (fromDictHooks : χ → Dict → Except PyError α)
    (config_file config_schema : String) (converter : Option χ)
    (kwargs : List (String × Val)) :
    extract eng fs fromDict fromDictHooks config_file config_schema converter kwargs =
      (fs config_schema).bind (fun schema =>
        (fs config_file).bind (fun settings =>
          (validate eng settings schema).bind (fun _ =>
            (override eng settings schema kwargs).1.bind (fun new_settings =>
              convert_settings_dict_to_dataclass fromDict fromDictHooks
                new_settings converter)))) := by
  unfold extract parse
  cases hsc : fs config_schema with
  | error e => rfl
  | ok schema =>
    dsimp only
    cases hcf : fs config_file with
    | error e => rfl
    | ok settings =>
      dsimp only
      cases hv : validate eng settings schema with
      | error e => simp [Except.bind, hv]
      | ok u =>
        cases u
        dsimp only
        cases ho : (override eng settings schema kwargs).1 with
        | error e => simp [Except.bind, hv, ho]
        | ok s2 => simp [Except.bind, hv, ho]

/-- C10: when `override` fails because re-validation of the merged mapping
rejects it, the caller's settings dict has already been mutated and, for
pairwise-distinct override keys, still holds every override value when the
error propagates — the input is not restored. -/
theorem override_failed_revalidation_keeps_mutation (eng : RuleEngine) (M S : Dict)
    (kwargs : List (String × Val)) (e : PyError) (h : kwargs ≠ [])
    (hv : validate eng (kwargs.foldl (fun d kv => dictSet d kv.1 kv.2) M) S = .error e) :
    (override eng M S kwargs).1 = .error e ∧
    (override eng M S kwargs).2 = kwargs.foldl (fun d kv => dictSet d kv.1 kv.2) M ∧
    ((kwargs.map Prod.fst).Nodup →
      ∀ kv ∈ kwargs, dictLookup (override eng M S kwargs).2 kv.1 = some kv.2) := by
  rw [override_nonempty_eq eng M S kwargs h, hv]
  refine ⟨rfl, rfl, fun hnd kv hkv => ?_⟩
  exact dictLookup_foldl_nodup kwargs M hnd kv hkv

theorem override_failed_revalidation_keeps_mutation_witness :
    ([("x", Val.vInt 1)] : List (String × Val)) ≠ [] ∧
    validate engReject
        ([("x", Val.vInt 1)].foldl (fun d kv => dictSet d kv.1 kv.2) [("a", Val.vInt 0)])
        [("s", Val.vNone)] =
      .error (.valueError "Cerberus validation Error: E") ∧
    ((override engReject [("a", Val.vInt 0)] [("s", Val.vNone)] [("x", Val.vInt 1)]).1 =
        .error (.valueError "Cerberus validation Error: E") ∧
      (override engReject [("a", Val.vInt 0)] [("s", Val.vNone)] [("x", Val.vInt 1)]).2 =
        [("x", Val.vInt 1)].foldl (fun d kv => dictSet d kv.1 kv.2) [("a", Val.vInt 0)] ∧
      (([("x", Val.vInt 1)].map Prod.fst).Nodup →
        ∀ kv ∈ [("x", Val.vInt 1)],
          dictLookup
            (override engReject [("a", Val.vInt 0)] [("s", Val.vNone)]
              [("x", Val.vInt 1)]).2 kv.1 = some kv.2)) :=
  ⟨by simp, rfl,
    override_failed_revalidation_keeps_mutation engReject [("a", Val.vInt 0)]
      [("s", Val.vNone)] [("x", Val.vInt 1)]
      (.valueError "Cerberus validation Error: E") (by simp) rfl⟩

end ConfigParsing
